import Mathlib

/-- `StreamChunk` from types.ts: `{content, index}`. -/
structure StreamChunk where
  content : String
  index : Int
deriving Repr, DecidableEq

/-- `CompletionResponseMessage` from llm.ts: the wire completion frame. -/
structure CompletionResponseMessage where
  fullContent : String
  stopReason : String
  inputTokens : Int
  outputTokens : Int
  costUsd : Int
  latencyMs : Int
deriving Repr, DecidableEq

/-- `ErrorResponseMessage` from llm.ts: the wire error frame. -/
structure ErrorResponseMessage where
  code : String
  message : String
  retryable : Bool
deriving Repr, DecidableEq

/-- `ChatResponse` as built on the streaming path (llm.ts lines 239-246). -/
structure ChatResponse where
  content : String
  inputTokens : Int
  outputTokens : Int
  costUsd : Int
  latencyMs : Int
  stopReason : String
deriving Repr, DecidableEq

/-- The `ChatResponseMessage` oneof from llm.ts: at most one variant is
set; `unrecognized` models a frame with none of the known fields set. -/
inductive ChatResponseMessage where
  | sessionStarted (sessionId provider model : String)
  | chunk (content : String) (index : Int)
  | completion (c : CompletionResponseMessage)
  | error (e : ErrorResponseMessage)
  | aborted (reason : String)
  | unrecognized
deriving Repr, DecidableEq

/-- Mapping from the wire completion frame to the `ChatResponse`
aggregate, exactly as llm.ts lines 239-246 copy the fields. -/
def toChatResponse (c : CompletionResponseMessage) : ChatResponse :=
  { content := c.fullContent
    inputTokens := c.inputTokens
    outputTokens := c.outputTokens
    costUsd := c.costUsd
    latencyMs := c.latencyMs
    stopReason := c.stopReason }

/-- Terminal outcome of the generator: a `return` (whose value is
`none` when the code returns a null completion) or a thrown error,
identified by its message string as built in llm.ts. -/
inductive Outcome where
  | ret (r : Option ChatResponse)
  | thrown (msg : String)
deriving Repr, DecidableEq

/-- A value delivered to the pull consumer: a yielded chunk, or the
terminal outcome of the generator. -/
inductive Emit where
  | chunkOut (c : StreamChunk)
  | term (o : Outcome)
deriving Repr, DecidableEq

/-- Generator position: `ready` while the generator body can still run
(main loop or drain loop -- the two are distinguished at run time only
by the `done` flag, which the loop re-checks at every pull), `finished`
once it has returned or thrown. -/
inductive Phase where
  | ready
  | finished (o : Outcome)
deriving Repr, DecidableEq

/-- The local state of one `chatStream` invocation (llm.ts 218-305):
`chunks`, `completion`, `error`, `done` are the generator's local
variables; `waiting` records whether `resolveNext` is non-null (a
consumer pull is pending); `phase` is the generator's position. -/
structure GenState where
  chunks : List StreamChunk
  completion : Option ChatResponse
  error : Option String
  done : Bool
  waiting : Bool
  phase : Phase
deriving Repr, DecidableEq

/-- Initial state: at the top of the main loop, nothing buffered. -/
def initGen : GenState :=
  { chunks := [], completion := none, error := none
    done := false, waiting := false, phase := .ready }

/-- The `stream.on('data', ...)` handler (llm.ts 226-260).  A chunk
either resolves the pending pull directly or is appended to the buffer;
a completion or error frame records its payload, sets `done`, and
resolves any pending pull (whose resumption in the generator body checks
`error` and then returns `result.value`); `sessionStarted`, `aborted`
and unrecognized frames fall through all three `if` branches and are
ignored. -/
def onData (s : GenState) (msg : ChatResponseMessage) : GenState × Option Emit :=
  match msg with
  | .chunk content index =>
    let c : StreamChunk := { content := content, index := index }
    if s.waiting then
      ({ s with waiting := false }, some (.chunkOut c))
    else
      ({ s with chunks := s.chunks ++ [c] }, none)
  | .completion cm =>
    let comp := toChatResponse cm
    if s.waiting then
      match s.error with
      | some e =>
        ({ s with completion := some comp, done := true, waiting := false, phase := .finished (.thrown e) }, some (.term (.thrown e)))
      | none =>
        ({ s with completion := some comp, done := true, waiting := false, phase := .finished (.ret (some comp)) }, some (.term (.ret (some comp))))
    else
      ({ s with completion := some comp, done := true }, none)
  | .error e =>
    let m := e.code ++ ": " ++ e.message
    if s.waiting then
      ({ s with error := some m, done := true, waiting := false, phase := .finished (.thrown m) }, some (.term (.thrown m)))
    else
      ({ s with error := some m, done := true }, none)
  | _ => (s, none)

/-- The `stream.on('error', ...)` handler (llm.ts 262-269). -/
def onStreamError (s : GenState) (m : String) : GenState × Option Emit :=
  if s.waiting then
    ({ s with error := some m, done := true, waiting := false, phase := .finished (.thrown m) }, some (.term (.thrown m)))
  else
    ({ s with error := some m, done := true }, none)

/-- The `stream.on('end', ...)` handler (llm.ts 271-277).  When a pull
is pending it resolves it with `{value: completion, done: true}`; the
generator resumption throws `error` if set, and otherwise returns
`completion` -- which is null when no completion frame ever arrived. -/
def onEnd (s : GenState) : GenState × Option Emit :=
  if s.waiting then
    match s.error with
    | some e =>
      ({ s with done := true, waiting := false, phase := .finished (.thrown e) }, some (.term (.thrown e)))
    | none =>
      ({ s with done := true, waiting := false, phase := .finished (.ret s.completion) }, some (.term (.ret s.completion)))
  else
    ({ s with done := true }, none)

/-- One consumer pull (`next()`), running the generator body from its
current suspension point to the next yield / return / throw / await
(llm.ts 280-304).  In the main loop (`done` false) a buffered chunk is
yielded, else the pull blocks (`resolveNext` is installed).  Once `done`
is set the drain loop yields remaining buffered chunks, then `error` is
thrown if set, then a missing completion raises
"Stream ended without completion", else the completion is returned. -/
def pullNext (s : GenState) : GenState × Option Emit :=
  match s.phase with
  | .finished _ => (s, none)
  | .ready =>
    if s.waiting then (s, none)
    else if s.done = false then
      match s.chunks with
      | c :: rest => ({ s with chunks := rest }, some (.chunkOut c))
      | [] => ({ s with waiting := true }, none)
    else
      match s.chunks with
      | c :: rest => ({ s with chunks := rest }, some (.chunkOut c))
      | [] =>
        match s.error with
        | some e =>
          ({ s with phase := .finished (.thrown e) }, some (.term (.thrown e)))
        | none =>
          match s.completion with
          | some comp =>
            ({ s with phase := .finished (.ret (some comp)) },
              some (.term (.ret (some comp))))
          | none =>
            ({ s with phase := .finished (.thrown "Stream ended without completion") },
              some (.term (.thrown "Stream ended without completion")))

/-- A transport-side occurrence: a decoded duplex frame, a stream-level
error, or the end of the stream. -/
inductive TransportEvent where
  | data (msg : ChatResponseMessage)
  | streamError (m : String)
  | streamEnd
deriving Repr, DecidableEq

/-- An atomic step of the single-threaded execution: a consumer pull or
a transport event. -/
inductive Step where
  | pull
  | ev (e : TransportEvent)
deriving Repr, DecidableEq

/-- Dispatch one step to the corresponding handler. -/
def chatStreamStep (s : GenState) (st : Step) : GenState × Option Emit :=
  match st with
  | .pull => pullNext s
  | .ev (.data m) => onData s m
  | .ev (.streamError m) => onStreamError s m
  | .ev .streamEnd => onEnd s

/-- Run a schedule of steps from a state, collecting the delivered
values in order. -/
def chatStreamRun (s : GenState) : List Step → GenState × List Emit
  | [] => (s, [])
  | st :: rest =>
    let p := chatStreamStep s st
    let q := chatStreamRun p.1 rest
    (q.1, p.2.toList ++ q.2)

/-- The sequence of values a consumer receives over a schedule, starting
from a fresh `chatStream` invocation. -/
def chatStreamEmits (sched : List Step) : List Emit :=
  (chatStreamRun initGen sched).2

/-- The transport events of a schedule, in order (the schedule is an
interleaving of these with consumer pulls). -/
def eventsOf : List Step → List TransportEvent
  | [] => []
  | .pull :: rest => eventsOf rest
  | .ev e :: rest => e :: eventsOf rest

/-- The chunk event carrying a given `StreamChunk`. -/
def chunkEv (c : StreamChunk) : TransportEvent :=
  .data (.chunk c.content c.index)

/-- The completion event for a given wire completion frame. -/
def completionEv (cm : CompletionResponseMessage) : TransportEvent :=
  .data (.completion cm)

/-- The remote-error event for a given wire error frame. -/
def errorEv (e : ErrorResponseMessage) : TransportEvent :=
  .data (.error e)

/-- Main-phase states: no terminal transport event processed yet; a
pending pull implies an empty buffer (the generator only awaits when the
buffer is empty). -/
def Inv1 (s : GenState) : Prop :=
  s.done = false ∧ s.error = none ∧ s.completion = none ∧ s.phase = .ready ∧
    (s.waiting = true → s.chunks = [])

/-- States just after a terminal transport event (completion or error)
was processed while no pull was pending: the generator has not yet
observed the terminal state and will drain the buffer before producing
outcome `o`. -/
def Inv2 (o : Outcome) (s : GenState) : Prop :=
  s.done = true ∧ s.waiting = false ∧ s.phase = .ready ∧
    (match o with
     | .thrown m => s.error = some m
     | .ret (some c) => s.error = none ∧ s.completion = some c
     | .ret none => False)

/-- What `m` pulls deliver from a post-terminal state with buffer `b`
and recorded outcome `o`: the buffered chunks (as many as pulled), then
the outcome. -/
def drainEmits (b : List StreamChunk) (o : Outcome) (m : Nat) : List Emit :=
  if b.length < m then b.map .chunkOut ++ [.term o] else (b.take m).map .chunkOut

/-- The two kinds of terminal transport occurrences on a session that
ends with a proper terminal frame (a remote completion frame, a remote
error frame) plus a stream-level error, with the outcome each induces. -/
def termSpec (t : TransportEvent) (o : Outcome) : Prop :=
  (∃ cm, t = completionEv cm ∧ o = .ret (some (toChatResponse cm))) ∨
    (∃ e, t = errorEv e ∧ o = .thrown (e.code ++ ": " ++ e.message)) ∨
    (∃ m, t = .streamError m ∧ o = .thrown m)

/-- The chunks among a delivered sequence, in order (what a `for await`
loop over the generator sees). -/
def chunksOf (es : List Emit) : List StreamChunk :=
  es.filterMap fun e =>
    match e with
    | .chunkOut c => some c
    | .term _ => none

/-- The first terminal outcome among a delivered sequence, if any. -/
def terminalOf : List Emit → Option Outcome
  | [] => none
  | .term o :: _ => some o
  | .chunkOut _ :: rest => terminalOf rest

/-- `chatStreamCallback` (llm.ts 319-335): first iterates a fresh
`chatStream(input)` sequence with `for await`, invoking `onChunk` per
chunk and discarding the generator's return value (a thrown outcome
propagates and the second run never starts); then creates a second
`chatStream(input)` generator, iterates it manually invoking `onChunk`
per chunk, and returns that second sequence's terminal value.  Each run
is driven by its own transport schedule; the result is the pair
(arguments passed to `onChunk`, in order; overall result), where the
result is `none` when a run never terminates. -/
def chatStreamCallback (sched1 sched2 : List Step) :
    List StreamChunk × Option Outcome :=
  let e1 := chatStreamEmits sched1
  match terminalOf e1 with
  | none => (chunksOf e1, none)
  | some (.thrown m) => (chunksOf e1, some (.thrown m))
  | some (.ret _) =>
    let e2 := chatStreamEmits sched2
    (chunksOf e1 ++ chunksOf e2, terminalOf e2)

/-- Well-shaped delivered sequences: some chunks, then at most one
terminal outcome, which (when present) is last. -/
inductive GoodEmits : List Emit → Prop
  | nil : GoodEmits []
  | single (o : Outcome) : GoodEmits [.term o]
  | chunkCons (c : StreamChunk) {es : List Emit} :
      GoodEmits es → GoodEmits (.chunkOut c :: es)

/-- The frame variants the `stream.on('data')` handler actually
inspects (llm.ts 227, 238, 252). -/
def handledByDataHandler : ChatResponseMessage → Bool
  | .chunk _ _ => true
  | .completion _ => true
  | .error _ => true
  | _ => false

/-- `ChatMessage` from types.ts. -/
structure ChatMessage where
  role : String
  content : String
deriving Repr, DecidableEq

/-- `WSStartRequest` from ws.ts. -/
structure WSStartRequest where
  systemPrompt : Option String
  model : Option String
  maxTokens : Option Int
  temperature : Option Int
  messages : Option (List ChatMessage)
deriving Repr, DecidableEq

/-- `WSCompletionResponse` from ws.ts: the outbound completion frame
payload `{fullContent, stopReason, inputTokens, outputTokens, costUsd,
latencyMs}`. -/
structure WSCompletionResponse where
  fullContent : String
  stopReason : String
  inputTokens : Int
  outputTokens : Int
  costUsd : Int
  latencyMs : Int
deriving Repr, DecidableEq

/-- Outbound WebSocket frames the bridge can send. -/
inductive WSFrame where
  | started (sessionId provider model : String)
  | chunkF (content : String) (index : Int)
  | completionF (c : WSCompletionResponse)
  | errorF (code message : String) (retryable : Bool)
  | toolCallF (toolCallId name argumentsJson : String)
deriving Repr, DecidableEq

/-- State of one `WSSession` (ws.ts 159-340): the `started` flag and the
`abortController` field (`none` when null, `some b` when present with
`b` recording whether `abort()` has been called on it), together with
the observables of its collaborators: the underlying `chatStream`
generator state (`none` while no stream exists), the socket's
`readyState`, and the frames sent on the socket so far. -/
structure WSState where
  started : Bool
  abortAC : Option Bool
  gen : Option GenState
  readyState : Nat
  sent : List WSFrame
deriving Repr, DecidableEq

/-- WebSocket OPEN ready state (ws.ts 150). -/
def WS_OPEN : Nat := 1

/-- `WSSession.send` (ws.ts 316-323): appends the frame to the socket
when it is OPEN, otherwise returns without sending and without
raising. -/
def wsSend (s : WSState) (f : WSFrame) : WSState :=
  if s.readyState = WS_OPEN then { s with sent := s.sent ++ [f] } else s

/-- `WSSession.sendError` (ws.ts 325-331). -/
def sendError (s : WSState) (code message : String) (retryable : Bool) : WSState :=
  wsSend s (.errorF code message retryable)

/-- `WSSession.handleStart` (ws.ts 219-252): reject with
`already_started` when a session is active; otherwise install a fresh
AbortController, create a fresh `chatStream` generator, set `started`,
and send the locally synthesized `started` frame (`uuid` stands for the
`crypto.randomUUID()` value). -/
def handleStart (s : WSState) (req : WSStartRequest) (uuid : String) : WSState :=
  if s.started then
    sendError s "already_started" "Session already started" false
  else
    let s1 := { s with abortAC := some false, gen := some initGen, started := true }
    wsSend s1 (.started uuid "anthropic" (req.model.getD "sonnet"))

/-- `WSSession.handleUserMessage` (ws.ts 285-294). -/
def handleUserMessage (s : WSState) : WSState :=
  if s.started = false then
    sendError s "not_started" "Session not started" false
  else
    sendError s "not_implemented"
      "Multi-turn streaming not yet supported in TypeScript SDK" false

/-- `WSSession.handleAbort` (ws.ts 296-304): a no-op when idle;
otherwise calls `abort()` on the local AbortController -- which nothing
else observes, since the controller is never passed to `chatStream` or
written to the transport. -/
def handleAbort (s : WSState) : WSState :=
  if s.started = false then s
  else
    match s.abortAC with
    | some _ => { s with abortAC := some true }
    | none => s

/-- `WSSession.handleToolResult` (ws.ts 306-314). -/
def handleToolResult (s : WSState) : WSState :=
  if s.started = false then
    sendError s "not_started" "Session not started" false
  else
    sendError s "not_implemented" "Tool results not yet supported in TypeScript SDK" false

/-- `WSSession.cleanup` (ws.ts 333-339): abort and discard the local
AbortController and clear `started`; the generator, the socket and the
sent frames are untouched. -/
def cleanup (s : WSState) : WSState :=
  { s with abortAC := none, started := false }

/-- The `fullContent` accumulator of `readStreamResponses`
(`fullContent += chunk.content`). -/
def accumContent (acc : String) : List StreamChunk → String
  | [] => acc
  | c :: rest => accumContent (acc ++ c.content) rest

/-- The frames `WSSession.readStreamResponses` (ws.ts 254-283) produces
from the generator's delivered sequence: each chunk becomes a `chunk`
frame; a normal end of iteration becomes one `completion` frame whose
`fullContent` is the accumulated chunk text, `stopReason` is
"end_turn" and every numeric field is 0 (the generator's aggregate
return value is discarded by `for await`); a thrown error becomes one
`stream_error` error frame.  An unterminated sequence has produced no
terminal frame yet. -/
def rsrFrames : List Emit → String → List WSFrame
  | [], _ => []
  | .chunkOut c :: rest, acc =>
    .chunkF c.content c.index :: rsrFrames rest (acc ++ c.content)
  | .term (.ret _) :: _, acc => [.completionF ⟨acc, "end_turn", 0, 0, 0, 0⟩]
  | .term (.thrown m) :: _, _ => [.errorF "stream_error" m false]

/-- `WSSession.readStreamResponses` as a state transformer: every
produced frame goes through the `send` guard. -/
def readStreamResponses (s : WSState) (es : List Emit) : WSState :=
  (rsrFrames es "").foldl wsSend s

/-- The completion frame as the spec describes it (§4.3, §6): built
from the Pull Adapter's terminal aggregate `ChatResponse`. -/
def specCompletionFrame (r : ChatResponse) : WSFrame :=
  .completionF ⟨r.content, r.stopReason, r.inputTokens, r.outputTokens,
    r.costUsd, r.latencyMs⟩

/-! ## Theorems -/

/-- Once the generator has finished (and no pull is pending), every
further step is silent and leaves it finished. -/
theorem step_finished (s : GenState) (st : Step) (o : Outcome)
    (hp : s.phase = .finished o) (hw : s.waiting = false) :
    (chatStreamStep s st).1.phase = .finished o ∧
      (chatStreamStep s st).1.waiting = false ∧
      (chatStreamStep s st).2 = none := by
  cases st with
  | pull => simp [chatStreamStep, pullNext, hp, hw]
  | ev e =>
    cases e with
    | data m => cases m <;> simp [chatStreamStep, onData, hp, hw]
    | streamError m => simp [chatStreamStep, onStreamError, hp, hw]
    | streamEnd => simp [chatStreamStep, onEnd, hp, hw]

/-- A finished generator delivers nothing more, over any schedule. -/
theorem run_finished (l : List Step) (s : GenState) (o : Outcome)
    (hp : s.phase = .finished o) (hw : s.waiting = false) :
    (chatStreamRun s l).2 = [] := by
  induction l generalizing s with
  | nil => simp [chatStreamRun]
  | cons st rest ih =>
    have h := step_finished s st o hp hw
    simp [chatStreamRun, h.2.2, ih _ h.1 h.2.1]

/-- Runs compose over schedule concatenation. -/
theorem chatStreamRun_append (l1 l2 : List Step) (s : GenState) :
    chatStreamRun s (l1 ++ l2)
      = ((chatStreamRun (chatStreamRun s l1).1 l2).1,
          (chatStreamRun s l1).2 ++ (chatStreamRun (chatStreamRun s l1).1 l2).2) := by
  induction l1 generalizing s with
  | nil => simp [chatStreamRun]
  | cons st rest ih => simp [chatStreamRun, ih]

/-- A schedule with no transport events is all pulls. -/
theorem eventsOf_nil_pulls (l : List Step) (h : eventsOf l = []) :
    l = List.replicate l.length .pull := by
  induction l with
  | nil => simp
  | cons st rest ih =>
    cases st with
    | pull =>
      rw [eventsOf] at h
      simpa [List.replicate_succ] using ih h
    | ev e => simp [eventsOf] at h

theorem drainEmits_cons (c : StreamChunk) (r : List StreamChunk)
    (o : Outcome) (m : Nat) :
    drainEmits (c :: r) o (m + 1) = .chunkOut c :: drainEmits r o m := by
  by_cases h : r.length < m <;>
    simp [drainEmits, h, Nat.succ_lt_succ_iff, List.take_succ_cons]

theorem drainEmits_all (b : List StreamChunk) (o : Outcome) (m : Nat)
    (h : b.length < m) : drainEmits b o m = b.map .chunkOut ++ [.term o] := by
  simp [drainEmits, h]

/-- Pull-only schedules from an `Inv2` state drain the buffer and then
produce the recorded outcome. -/
theorem drain_run (m : Nat) (s : GenState) (o : Outcome) (h : Inv2 o s) :
    (chatStreamRun s (List.replicate m .pull)).2 = drainEmits s.chunks o m := by
  induction m generalizing s with
  | zero => simp [chatStreamRun, drainEmits]
  | succ m ih =>
    obtain ⟨hd, hw, hp, ho⟩ := h
    rw [List.replicate_succ]
    cases hb : s.chunks with
    | cons c r =>
      have hstep : chatStreamStep s .pull = ({ s with chunks := r }, some (.chunkOut c)) := by
        simp [chatStreamStep, pullNext, hp, hw, hd, hb]
      have h2 : Inv2 o { s with chunks := r } := by
        refine ⟨hd, hw, hp, ?_⟩
        cases o with
        | thrown msg => simp only [Inv2] at ho ⊢; exact ho
        | ret rr => cases rr <;> simp_all
      simp [chatStreamRun, hstep, ih _ h2, hb, drainEmits_cons]
    | nil =>
      cases o with
      | thrown msg =>
        have hstep : chatStreamStep s .pull
            = ({ s with phase := .finished (.thrown msg) }, some (.term (.thrown msg))) := by
          simp only [Inv2] at ho
          simp [chatStreamStep, pullNext, hp, hw, hd, hb, ho]
        have hrest := run_finished (List.replicate m .pull)
          { s with phase := .finished (.thrown msg) } (.thrown msg) (by simp) hw
        rw [hb] at hrest
        simp [chatStreamRun, hstep, hrest, hb, drainEmits]
      | ret rr =>
        cases rr with
        | none => exact absurd ho (by simp)
        | some comp =>
          have hstep : chatStreamStep s .pull
              = ({ s with phase := .finished (.ret (some comp)) },
                  some (.term (.ret (some comp)))) := by
            simp only [Inv2] at ho
            simp [chatStreamStep, pullNext, hp, hw, hd, hb, ho.1, ho.2]
          have hrest := run_finished (List.replicate m .pull)
            { s with phase := .finished (.ret (some comp)) } (.ret (some comp)) (by simp) hw
          rw [hb] at hrest
          simp [chatStreamRun, hstep, hrest, hb, drainEmits]

/-- Processing a terminal transport event while a pull is pending
resolves the pull with the outcome and finishes the generator. -/
theorem term_step_waiting (s : GenState) (t : TransportEvent) (o : Outcome)
    (ht : termSpec t o) (he : s.error = none) (hw : s.waiting = true) :
    (chatStreamStep s (.ev t)).2 = some (.term o) ∧
      (chatStreamStep s (.ev t)).1.phase = .finished o ∧
      (chatStreamStep s (.ev t)).1.waiting = false := by
  rcases ht with ⟨cm, rfl, rfl⟩ | ⟨er, rfl, rfl⟩ | ⟨m, rfl, rfl⟩
  · simp [chatStreamStep, completionEv, onData, hw, he]
  · simp [chatStreamStep, errorEv, onData, hw]
  · simp [chatStreamStep, onStreamError, hw]

/-- Processing a terminal transport event with no pull pending records
the outcome silently, leaving the buffer for the drain loop. -/
theorem term_step_nowaiting (s : GenState) (t : TransportEvent) (o : Outcome)
    (ht : termSpec t o) (he : s.error = none) (hw : s.waiting = false)
    (hp : s.phase = .ready) :
    (chatStreamStep s (.ev t)).2 = none ∧
      Inv2 o (chatStreamStep s (.ev t)).1 ∧
      (chatStreamStep s (.ev t)).1.chunks = s.chunks := by
  rcases ht with ⟨cm, rfl, rfl⟩ | ⟨er, rfl, rfl⟩ | ⟨m, rfl, rfl⟩
  · simp [chatStreamStep, completionEv, onData, hw, he, Inv2, hp]
  · simp [chatStreamStep, errorEv, onData, hw, Inv2, hp]
  · simp [chatStreamStep, onStreamError, hw, Inv2, hp]

/-- Master lemma: from any main-phase state, over any interleaving of
consumer pulls with the transport events "these chunks in order, then a
terminal event", followed by enough pulls, the consumer receives exactly
the buffered and arriving chunks in order and then the terminal outcome. -/
theorem runInterleaved (sched : List Step) (cs : List StreamChunk)
    (t : TransportEvent) (o : Outcome) (ht : termSpec t o) (k : Nat) :
    ∀ s : GenState, Inv1 s →
      eventsOf sched = cs.map chunkEv ++ [t] →
      s.chunks.length + cs.length + 1 ≤ k →
      (chatStreamRun s (sched ++ List.replicate k .pull)).2
        = (s.chunks ++ cs).map .chunkOut ++ [.term o] := by
  induction sched generalizing cs with
  | nil =>
    intro s _ hev _
    exact absurd hev.symm (by simp [eventsOf])
  | cons st rest ih =>
    intro s hInv hev hk
    obtain ⟨hd, he, hc, hp, hwc⟩ := hInv
    cases st with
    | pull =>
      rw [eventsOf] at hev
      rw [List.cons_append]
      cases hw : s.waiting with
      | true =>
        have hstep : chatStreamStep s .pull = (s, none) := by
          simp [chatStreamStep, pullNext, hp, hw]
        simp only [chatStreamRun, hstep, Option.toList_none, List.nil_append]
        exact ih cs s ⟨hd, he, hc, hp, hwc⟩ hev hk
      | false =>
        cases hb : s.chunks with
        | nil =>
          have hstep : chatStreamStep s .pull = ({ s with waiting := true }, none) := by
            simp [chatStreamStep, pullNext, hp, hw, hd, hb]
          have h2 : Inv1 { s with waiting := true } := ⟨hd, he, hc, hp, by simp [hb]⟩
          simp only [chatStreamRun, hstep, Option.toList_none, List.nil_append]
          have := ih cs { s with waiting := true } h2 hev (by simpa [hb] using hk)
          simpa [hb] using this
        | cons c r =>
          have hstep : chatStreamStep s .pull
              = ({ s with chunks := r }, some (.chunkOut c)) := by
            simp [chatStreamStep, pullNext, hp, hw, hd, hb]
          have h2 : Inv1 { s with chunks := r } := ⟨hd, he, hc, hp, by simp [hw]⟩
          have hk2 : r.length + cs.length + 1 ≤ k := by
            rw [hb] at hk; simp at hk; omega
          have := ih cs { s with chunks := r } h2 hev hk2
          simp only [chatStreamRun, hstep, Option.toList_some, List.singleton_append]
          rw [this]
          simp
    | ev e =>
      have hev2 : e :: eventsOf rest = cs.map chunkEv ++ [t] := by
        rw [eventsOf] at hev; exact hev
      rw [List.cons_append]
      cases cs with
      | cons c cs2 =>
        rw [List.map_cons, List.cons_append, List.cons.injEq] at hev2
        obtain ⟨rfl, hev3⟩ := hev2
        cases hw : s.waiting with
        | true =>
          have hch : s.chunks = [] := hwc hw
          have hstep : chatStreamStep s (.ev (chunkEv c))
              = ({ s with waiting := false }, some (.chunkOut c)) := by
            simp [chatStreamStep, chunkEv, onData, hw]
          have h2 : Inv1 { s with waiting := false } := ⟨hd, he, hc, hp, by simp⟩
          have hkn : s.chunks.length + cs2.length + 1 ≤ k := by
            simp only [List.length_cons] at hk; omega
          have := ih cs2 { s with waiting := false } h2 hev3 hkn
          simp only [chatStreamRun, hstep, Option.toList_some, List.singleton_append]
          rw [this]
          simp [hch]
        | false =>
          have hstep : chatStreamStep s (.ev (chunkEv c))
              = ({ s with chunks := s.chunks ++ [c] }, none) := by
            simp [chatStreamStep, chunkEv, onData, hw]
          have h2 : Inv1 { s with chunks := s.chunks ++ [c] } :=
            ⟨hd, he, hc, hp, by simp [hw]⟩
          have hkn : (s.chunks ++ [c]).length + cs2.length + 1 ≤ k := by
            simp only [List.length_cons] at hk; simp; omega
          have := ih cs2 { s with chunks := s.chunks ++ [c] } h2 hev3 hkn
          simp only [chatStreamRun, hstep, Option.toList_none, List.nil_append]
          rw [this]
          simp
      | nil =>
        rw [List.map_nil, List.nil_append, List.cons.injEq] at hev2
        obtain ⟨rfl, hrest⟩ := hev2
        cases hw : s.waiting with
        | true =>
          have hch : s.chunks = [] := hwc hw
          have hts := term_step_waiting s e o ht he hw
          have hrun := run_finished (rest ++ List.replicate k .pull)
            (chatStreamStep s (.ev e)).1 o hts.2.1 hts.2.2
          simp only [chatStreamRun]
          rw [hts.1, hrun]
          simp [hch]
        | false =>
          have hts := term_step_nowaiting s e o ht he hw hp
          have hrpulls : rest ++ List.replicate k .pull
              = List.replicate (rest.length + k) .pull := by
            conv_lhs => rw [eventsOf_nil_pulls rest hrest]
            rw [← List.replicate_add]
          have hdr := drain_run (rest.length + k) (chatStreamStep s (.ev e)).1 o hts.2.1
          have hlen : s.chunks.length < rest.length + k := by
            simp at hk; omega
          simp only [chatStreamRun]
          rw [hts.1, hrpulls, hdr, hts.2.2, drainEmits_all _ _ _ hlen]
          simp

theorem chunksOf_shape (cs : List StreamChunk) (o : Outcome) :
    chunksOf (cs.map .chunkOut ++ [.term o]) = cs := by
  induction cs <;> simp_all [chunksOf]

theorem terminalOf_shape (cs : List StreamChunk) (o : Outcome) :
    terminalOf (cs.map .chunkOut ++ [.term o]) = some o := by
  induction cs <;> simp_all [terminalOf]

/-- From a ready state, a step either keeps the generator ready (and
delivers nothing or a chunk) or finishes it delivering the outcome. -/
theorem step_ready (s : GenState) (st : Step) (hp : s.phase = .ready) :
    ((chatStreamStep s st).1.phase = .ready ∧
        ((chatStreamStep s st).2 = none ∨
          ∃ c, (chatStreamStep s st).2 = some (.chunkOut c))) ∨
      ∃ o, (chatStreamStep s st).1.phase = .finished o ∧
        (chatStreamStep s st).1.waiting = false ∧
        (chatStreamStep s st).2 = some (.term o) := by
  cases st with
  | pull =>
    rcases hC : s.chunks with _ | ⟨c, r⟩ <;> rcases hD : s.done <;>
      rcases hW : s.waiting <;> rcases hE : s.error with _ | m <;>
      rcases hP : s.completion with _ | comp <;>
      simp [chatStreamStep, pullNext, hp, hC, hD, hW, hE, hP]
  | ev e =>
    cases e with
    | data m =>
      cases m <;> rcases hW : s.waiting <;> rcases hE : s.error with _ | msg <;>
        simp [chatStreamStep, onData, hp, hW, hE]
    | streamError m =>
      rcases hW : s.waiting <;> simp [chatStreamStep, onStreamError, hp, hW]
    | streamEnd =>
      rcases hW : s.waiting <;> rcases hE : s.error with _ | msg <;>
        simp [chatStreamStep, onEnd, hp, hW, hE]

/-- From any ready state, the delivered sequence over any schedule is
well-shaped: chunks, then at most one terminal, and nothing after it. -/
theorem run_ready (l : List Step) (s : GenState) (hp : s.phase = .ready) :
    GoodEmits (chatStreamRun s l).2 := by
  induction l generalizing s with
  | nil => simpa [chatStreamRun] using GoodEmits.nil
  | cons st rest ih =>
    rcases step_ready s st hp with ⟨hp2, hnone | ⟨c, hc⟩⟩ | ⟨o, hfin, hw, he⟩
    · simpa [chatStreamRun, hnone] using ih _ hp2
    · simpa [chatStreamRun, hc] using GoodEmits.chunkCons c (ih _ hp2)
    · have hrest := run_finished rest (chatStreamStep s st).1 o hfin hw
      simpa [chatStreamRun, he, hrest] using GoodEmits.single o

/-- C1: for every finite arrival sequence of N chunk events followed by
a completion event, interleaved arbitrarily with consumer pulls (chunks
arriving early are buffered, chunks arriving while a pull is pending are
handed off directly), the pull sequence yields exactly those N chunks in
arrival order and then terminates with the completion's aggregate
`ChatResponse`. -/
theorem chatStream_ordering (cs : List StreamChunk)
    (cm : CompletionResponseMessage) (sched : List Step)
    (h : eventsOf sched = cs.map chunkEv ++ [completionEv cm]) :
    chatStreamEmits (sched ++ List.replicate (cs.length + 1) .pull)
      = cs.map .chunkOut ++ [.term (.ret (some (toChatResponse cm)))] := by
  have hmain := runInterleaved sched cs (completionEv cm)
    (.ret (some (toChatResponse cm))) (Or.inl ⟨cm, rfl, rfl⟩)
    (cs.length + 1) initGen ⟨rfl, rfl, rfl, rfl, fun _ => rfl⟩ h
    (by simp [initGen])
  simpa [chatStreamEmits, initGen] using hmain

/-- Witness for C1: the spec's own scenario, with the three chunks
arriving before any pull (buffered) -- the consumer still pulls all of
them in order before the terminal value. -/
theorem chatStream_ordering_witness :
    chatStreamEmits
        ([.ev (chunkEv ⟨"He", 0⟩), .ev (chunkEv ⟨"llo", 1⟩), .ev (chunkEv ⟨"!", 2⟩),
            .ev (completionEv ⟨"Hello!", "end_turn", 5, 2, 0, 7⟩)]
          ++ List.replicate 4 .pull)
      = [.chunkOut ⟨"He", 0⟩, .chunkOut ⟨"llo", 1⟩, .chunkOut ⟨"!", 2⟩,
          .term (.ret (some (toChatResponse ⟨"Hello!", "end_turn", 5, 2, 0, 7⟩)))] :=
  chatStream_ordering [⟨"He", 0⟩, ⟨"llo", 1⟩, ⟨"!", 2⟩]
    ⟨"Hello!", "end_turn", 5, 2, 0, 7⟩ _ (by rfl)

/-- C2 counterexample: a chunk the transport emits after the completion
event has already been processed (and `done` is set) is still forwarded
to the consumer by the drain loop on the consumer's next pull, before
the terminal value -- the claim says no chunk is ever forwarded after a
terminal event is processed. -/
theorem chatStream_late_chunk_forwarded :
    chatStreamEmits
        [.ev (completionEv ⟨"full", "end_turn", 1, 1, 0, 0⟩),
          .ev (chunkEv ⟨"late", 9⟩), .pull, .pull]
      = [.chunkOut ⟨"late", 9⟩,
          .term (.ret (some (toChatResponse ⟨"full", "end_turn", 1, 1, 0, 0⟩)))] := rfl

/-- C2 as amended: per session, the consumer receives some chunks, then
at most one terminal outcome, and nothing after the terminal outcome has
been delivered; chunk events the transport emits after a terminal event
but before the consumer has received the terminal outcome may however
still be forwarded ahead of it. -/
theorem chatStream_single_terminal (sched : List Step) :
    GoodEmits (chatStreamEmits sched) :=
  run_ready sched initGen rfl

/-- C4: `chatStreamCallback` drives the underlying single-use sequence
twice -- it iterates a first `chatStream` sequence to completion
forwarding its chunks to the callback, then creates and iterates a
second `chatStream` sequence for the same input (again invoking the
callback per chunk) and returns the second sequence's terminal value. -/
theorem chatStreamCallback_consumes_twice
    (cs1 cs2 : List StreamChunk) (cm1 cm2 : CompletionResponseMessage)
    (sched1 sched2 : List Step)
    (h1 : eventsOf sched1 = cs1.map chunkEv ++ [completionEv cm1])
    (h2 : eventsOf sched2 = cs2.map chunkEv ++ [completionEv cm2]) :
    chatStreamCallback (sched1 ++ List.replicate (cs1.length + 1) .pull)
        (sched2 ++ List.replicate (cs2.length + 1) .pull)
      = (cs1 ++ cs2, some (.ret (some (toChatResponse cm2)))) := by
  have e1 := runInterleaved sched1 cs1 (completionEv cm1)
    (.ret (some (toChatResponse cm1))) (Or.inl ⟨cm1, rfl, rfl⟩)
    (cs1.length + 1) initGen ⟨rfl, rfl, rfl, rfl, fun _ => rfl⟩ h1
    (by simp [initGen])
  have e2 := runInterleaved sched2 cs2 (completionEv cm2)
    (.ret (some (toChatResponse cm2))) (Or.inl ⟨cm2, rfl, rfl⟩)
    (cs2.length + 1) initGen ⟨rfl, rfl, rfl, rfl, fun _ => rfl⟩ h2
    (by simp [initGen])
  simp only [initGen] at e1 e2
  simp [chatStreamCallback, chatStreamEmits, initGen, e1, e2,
    chunksOf_shape, terminalOf_shape]

/-- Witness for C4: a two-chunk run consumed twice invokes the callback
on the chunk list twice over and returns the second run's aggregate. -/
theorem chatStreamCallback_consumes_twice_witness :
    chatStreamCallback
        ([.ev (chunkEv ⟨"He", 0⟩), .ev (chunkEv ⟨"llo", 1⟩),
            .ev (completionEv ⟨"Hello", "end_turn", 5, 2, 0, 7⟩)]
          ++ List.replicate 3 .pull)
        ([.ev (chunkEv ⟨"He", 0⟩), .ev (chunkEv ⟨"llo", 1⟩),
            .ev (completionEv ⟨"Hello", "end_turn", 5, 2, 0, 7⟩)]
          ++ List.replicate 3 .pull)
      = ([⟨"He", 0⟩, ⟨"llo", 1⟩, ⟨"He", 0⟩, ⟨"llo", 1⟩],
          some (.ret (some (toChatResponse ⟨"Hello", "end_turn", 5, 2, 0, 7⟩)))) :=
  chatStreamCallback_consumes_twice [⟨"He", 0⟩, ⟨"llo", 1⟩] [⟨"He", 0⟩, ⟨"llo", 1⟩]
    ⟨"Hello", "end_turn", 5, 2, 0, 7⟩ ⟨"Hello", "end_turn", 5, 2, 0, 7⟩
    _ _ (by rfl) (by rfl)

/-- C5: the code path that is supposed to raise
"Stream ended without completion" is reached only when the consumer
pulls after the stream has ended; when the consumer is already awaiting
the next element as the stream ends (first conjunct), the `end` handler
resolves the pending pull with the null completion and the generator
returns it as the terminal value without raising.  The second conjunct
is the pull-afterwards case, which does raise. -/
theorem chatStream_end_without_completion :
    chatStreamEmits [.pull, .ev .streamEnd] = [.term (.ret none)] ∧
      chatStreamEmits [.ev .streamEnd, .pull]
        = [.term (.thrown "Stream ended without completion")] :=
  ⟨rfl, rfl⟩

/-- C6: a remote error frame terminating the session causes the pull
sequence to deliver all previously arrived chunks and then raise an
error built from exactly that code and message
(`new Error(code + ": " + message)`), at the point where the next
element would have been produced; no completion value is ever produced
(the sequence never both ends cleanly and raises). -/
theorem chatStream_error_propagation (cs : List StreamChunk)
    (er : ErrorResponseMessage) (sched : List Step)
    (h : eventsOf sched = cs.map chunkEv ++ [errorEv er]) :
    chatStreamEmits (sched ++ List.replicate (cs.length + 1) .pull)
        = cs.map .chunkOut ++ [.term (.thrown (er.code ++ ": " ++ er.message))] ∧
      ∀ r, Emit.term (Outcome.ret r)
        ∉ chatStreamEmits (sched ++ List.replicate (cs.length + 1) .pull) := by
  have hmain := runInterleaved sched cs (errorEv er)
    (.thrown (er.code ++ ": " ++ er.message)) (Or.inr (Or.inl ⟨er, rfl, rfl⟩))
    (cs.length + 1) initGen ⟨rfl, rfl, rfl, rfl, fun _ => rfl⟩ h
    (by simp [initGen])
  have heq : chatStreamEmits (sched ++ List.replicate (cs.length + 1) .pull)
      = cs.map .chunkOut ++ [.term (.thrown (er.code ++ ": " ++ er.message))] := by
    simpa [chatStreamEmits, initGen] using hmain
  refine ⟨heq, fun r => ?_⟩
  rw [heq]
  simp

/-- Witness for C6: the spec's P6 error frame
`{code: "rate_limited", message: "slow down", retryable: true}` raises
"rate_limited: slow down" after the one buffered chunk. -/
theorem chatStream_error_propagation_witness :
    chatStreamEmits
        ([.ev (chunkEv ⟨"a", 0⟩), .ev (errorEv ⟨"rate_limited", "slow down", true⟩)]
          ++ List.replicate 2 .pull)
        = [.chunkOut ⟨"a", 0⟩, .term (.thrown "rate_limited: slow down")] ∧
      ∀ r, Emit.term (Outcome.ret r)
        ∉ chatStreamEmits
            ([.ev (chunkEv ⟨"a", 0⟩), .ev (errorEv ⟨"rate_limited", "slow down", true⟩)]
              ++ List.replicate 2 .pull) :=
  chatStream_error_propagation [⟨"a", 0⟩] ⟨"rate_limited", "slow down", true⟩ _ (by rfl)

/-- C7 counterexample: `sessionStarted`, `aborted` and unrecognized
frames are not classified and not surfaced as an error event -- the
`data` handler leaves the state untouched and delivers nothing, i.e.
they are silently discarded, contradicting the claim that unrecognized
shapes are surfaced as an `error` event with a generic code. -/
theorem chatStream_drops_unhandled_frames :
    onData initGen .unrecognized = (initGen, none) ∧
      onData initGen (.sessionStarted "sid" "anthropic" "sonnet") = (initGen, none) ∧
      onData initGen (.aborted "user requested") = (initGen, none) :=
  ⟨rfl, rfl, rfl⟩

/-- C7 as amended: the duplex `data` handler inspects only the `chunk`,
`completion` and `error` variants; every other frame (including
`sessionStarted` and `aborted`) is silently ignored -- no state change,
no error event, nothing delivered, nothing thrown. -/
theorem chatStream_silently_ignores_other_frames (s : GenState)
    (msg : ChatResponseMessage) (h : handledByDataHandler msg = false) :
    onData s msg = (s, none) := by
  cases msg <;> simp_all [handledByDataHandler, onData]

/-- Witness for the amended C7 at a concrete unrecognized frame. -/
theorem chatStream_silently_ignores_other_frames_witness :
    handledByDataHandler .unrecognized = false ∧
      onData initGen .unrecognized = (initGen, none) :=
  ⟨rfl, chatStream_silently_ignores_other_frames initGen .unrecognized rfl⟩

/-- `send` never touches anything but the sent-frame log. -/
theorem wsSend_preserves (s : WSState) (f : WSFrame) :
    (wsSend s f).started = s.started ∧ (wsSend s f).gen = s.gen ∧
      (wsSend s f).abortAC = s.abortAC ∧ (wsSend s f).readyState = s.readyState := by
  unfold wsSend
  split <;> simp

/-- Folding `send` over a frame list never touches anything but the
sent-frame log. -/
theorem wsSend_foldl_preserves (fs : List WSFrame) (s : WSState) :
    (fs.foldl wsSend s).started = s.started ∧ (fs.foldl wsSend s).gen = s.gen ∧
      (fs.foldl wsSend s).abortAC = s.abortAC ∧
      (fs.foldl wsSend s).readyState = s.readyState := by
  induction fs generalizing s with
  | nil => simp
  | cons f rest ih =>
    have h1 := wsSend_preserves s f
    have h2 := ih (wsSend s f)
    simp only [List.foldl_cons]
    exact ⟨h2.1.trans h1.1, h2.2.1.trans h1.2.1, h2.2.2.1.trans h1.2.2.1,
      h2.2.2.2.trans h1.2.2.2⟩

/-- On an OPEN socket, folding `send` appends all the frames. -/
theorem wsSend_foldl_open (fs : List WSFrame) (s : WSState)
    (h : s.readyState = WS_OPEN) :
    (fs.foldl wsSend s).sent = s.sent ++ fs := by
  induction fs generalizing s with
  | nil => simp
  | cons f rest ih =>
    have h1 : wsSend s f = { s with sent := s.sent ++ [f] } := by simp [wsSend, h]
    simp only [List.foldl_cons, h1]
    rw [ih { s with sent := s.sent ++ [f] } (by simpa using h)]
    simp

/-- On a non-OPEN socket, folding `send` is a no-op. -/
theorem wsSend_foldl_closed (fs : List WSFrame) (s : WSState)
    (h : s.readyState ≠ WS_OPEN) :
    fs.foldl wsSend s = s := by
  induction fs with
  | nil => simp
  | cons f rest ih =>
    have h1 : wsSend s f = s := by simp [wsSend, h]
    simp only [List.foldl_cons, h1, ih]

/-- The frame list a completed (non-throwing) stream produces. -/
theorem rsrFrames_shape (cs : List StreamChunk) (r : Option ChatResponse)
    (acc : String) :
    rsrFrames (cs.map .chunkOut ++ [.term (.ret r)]) acc
      = cs.map (fun c => WSFrame.chunkF c.content c.index)
        ++ [.completionF ⟨accumContent acc cs, "end_turn", 0, 0, 0, 0⟩] := by
  induction cs generalizing acc with
  | nil => simp [rsrFrames, accumContent]
  | cons c rest ih => simp [rsrFrames, accumContent, ih]

/-- C3 counterexample: for the spec's own scenario (aggregate
`ChatResponse` with fullContent "Hello", inputTokens 5, outputTokens 2,
latencyMs 7), the bridge forwards the chunk frames but finishes with a
completion frame whose numeric fields are hardcoded zeros -- it is not
built from the Pull Adapter's terminal aggregate, which `for await`
discards. -/
theorem bridge_completion_not_from_aggregate :
    (readStreamResponses
        { started := true, abortAC := some false, gen := some initGen,
          readyState := 1, sent := [] }
        [.chunkOut ⟨"He", 0⟩, .chunkOut ⟨"llo", 1⟩,
          .term (.ret (some ⟨"Hello", 5, 2, 0, 7, "end_turn"⟩))]).sent
      = [.chunkF "He" 0, .chunkF "llo" 1,
          .completionF ⟨"Hello", "end_turn", 0, 0, 0, 0⟩] ∧
      WSFrame.completionF ⟨"Hello", "end_turn", 0, 0, 0, 0⟩
        ≠ specCompletionFrame ⟨"Hello", 5, 2, 0, 7, "end_turn"⟩ :=
  ⟨rfl, by decide⟩

/-- C3 as amended: on an OPEN socket, a stream that runs to completion
makes the bridge forward each yielded chunk as a `chunk` frame and
finish with exactly one `completion` frame; its `fullContent` is the
concatenation of the forwarded chunk contents, its `stopReason` is
"end_turn", and inputTokens, outputTokens, costUsd and latencyMs are
all 0 -- the aggregate `ChatResponse` returned by the Pull Adapter is
discarded, not used. -/
theorem bridge_chunks_then_hardcoded_completion (s : WSState)
    (cs : List StreamChunk) (r : Option ChatResponse)
    (h : s.readyState = WS_OPEN) :
    (readStreamResponses s (cs.map .chunkOut ++ [.term (.ret r)])).sent
      = s.sent ++ cs.map (fun c => WSFrame.chunkF c.content c.index)
        ++ [.completionF ⟨accumContent "" cs, "end_turn", 0, 0, 0, 0⟩] := by
  unfold readStreamResponses
  rw [rsrFrames_shape, wsSend_foldl_open _ _ h]
  simp

/-- Witness for the amended C3. -/
theorem bridge_chunks_then_hardcoded_completion_witness :
    ((1 : Nat) = WS_OPEN) ∧
      (readStreamResponses
          { started := true, abortAC := some false, gen := some initGen,
            readyState := 1, sent := [] }
          (([⟨"He", 0⟩, ⟨"llo", 1⟩] : List StreamChunk).map .chunkOut
            ++ [.term (.ret (some ⟨"Hello", 5, 2, 0, 7, "end_turn"⟩))])).sent
        = [] ++ ([⟨"He", 0⟩, ⟨"llo", 1⟩] : List StreamChunk).map
              (fun c => WSFrame.chunkF c.content c.index)
          ++ [.completionF ⟨accumContent "" [⟨"He", 0⟩, ⟨"llo", 1⟩],
                "end_turn", 0, 0, 0, 0⟩] :=
  ⟨rfl, bridge_chunks_then_hardcoded_completion _ [⟨"He", 0⟩, ⟨"llo", 1⟩]
    (some ⟨"Hello", 5, 2, 0, 7, "end_turn"⟩) rfl⟩

/-- C8 counterexample: on a concrete active session, an inbound abort
frame only flips the local AbortController flag; the underlying
generator state is untouched (still `initGen`, whose phase is `ready`,
not a terminal state) and nothing is sent or written -- so no abort is
delivered to the underlying duplex session, which therefore does not
reach a terminal state on account of the abort. -/
theorem bridge_abort_reaches_nothing :
    handleAbort
        { started := true, abortAC := some false, gen := some initGen,
          readyState := 1, sent := [] }
      = { started := true, abortAC := some true, gen := some initGen,
          readyState := 1, sent := [] } ∧
      initGen.phase = Phase.ready :=
  ⟨rfl, rfl⟩

/-- C8 as amended: an inbound abort frame while a session is active
mutates only the local AbortController -- the generator state, the sent
frames and the `started` flag are unchanged, and no signal reaches the
duplex session; connection close or socket error runs `cleanup`, which
likewise only aborts and discards the local controller and clears
`started`, leaving the generator untouched and sending nothing; and any
frame attempted once the socket has left the OPEN state is silently
dropped. -/
theorem bridge_abort_only_local (s : WSState) (h : s.started = true) :
    ((handleAbort s).gen = s.gen ∧ (handleAbort s).sent = s.sent ∧
        (handleAbort s).started = s.started ∧
        (handleAbort s).readyState = s.readyState) ∧
      ((cleanup s).gen = s.gen ∧ (cleanup s).sent = s.sent ∧
        (cleanup s).started = false) ∧
      (∀ f, s.readyState ≠ WS_OPEN → wsSend s f = s) := by
  refine ⟨?_, ⟨rfl, rfl, rfl⟩, fun f hf => by simp [wsSend, hf]⟩
  unfold handleAbort
  rcases s.abortAC with _ | b <;> simp [h]

/-- Witness for the amended C8. -/
theorem bridge_abort_only_local_witness :
    ((true : Bool) = true) ∧
      (handleAbort
          { started := true, abortAC := some false, gen := some initGen,
            readyState := 1, sent := [] }).gen = some initGen :=
  ⟨rfl, (bridge_abort_only_local
    { started := true, abortAC := some false, gen := some initGen,
      readyState := 1, sent := [] } rfl).1.1⟩

/-- C9 counterexample: start a session on a fresh connection, run its
stream to completion, then send a second start frame.  The claim says
the connection has returned to idle and the second start is accepted;
in fact `started` is never cleared by stream completion, so the second
start is rejected with `error{code: already_started}` and no new
session is created. -/
theorem bridge_start_after_completion_rejected :
    handleStart
        (readStreamResponses
          (handleStart
            { started := false, abortAC := none, gen := none,
              readyState := 1, sent := [] }
            ⟨none, none, none, none, none⟩ "sid-1")
          [.term (.ret (some ⟨"Hello", 5, 2, 0, 7, "end_turn"⟩))])
        ⟨none, none, none, none, none⟩ "sid-2"
      = { started := true, abortAC := some false, gen := some initGen,
          readyState := 1,
          sent := [.started "sid-1" "anthropic" "sonnet",
            .completionF ⟨"", "end_turn", 0, 0, 0, 0⟩,
            .errorF "already_started" "Session already started" false] } := by
  rfl

/-- C9 as amended: the P4 half of the claim holds -- a start frame
received while `started` is set is answered with
`error{code: already_started}` and leaves the state (in particular the
original session's generator) unchanged apart from that error frame --
but `started` is never cleared when the stream completes
(`readStreamResponses` preserves it; only `cleanup`, on connection
close or error, clears it), so a start frame after stream completion on
the same connection is rejected the same way instead of starting a new
session. -/
theorem bridge_state_machine (s : WSState) (req : WSStartRequest)
    (uuid : String) (h : s.started = true) :
    handleStart s req uuid
        = sendError s "already_started" "Session already started" false ∧
      (handleStart s req uuid).gen = s.gen ∧
      (handleStart s req uuid).started = true ∧
      (∀ es, (readStreamResponses s es).started = s.started) := by
  have h1 : handleStart s req uuid
      = sendError s "already_started" "Session already started" false := by
    simp [handleStart, h]
  refine ⟨h1, ?_, ?_, fun es => (wsSend_foldl_preserves (rsrFrames es "") s).1⟩
  · rw [h1]
    exact (wsSend_preserves s _).2.1
  · rw [h1]
    exact (wsSend_preserves s _).1.trans h

/-- Witness for the amended C9. -/
theorem bridge_state_machine_witness :
    ((true : Bool) = true) ∧
      (handleStart
          { started := true, abortAC := some false, gen := some initGen,
            readyState := 1, sent := [] }
          ⟨none, none, none, none, none⟩ "sid-w").started = true :=
  ⟨rfl, (bridge_state_machine
    { started := true, abortAC := some false, gen := some initGen,
      readyState := 1, sent := [] }
    ⟨none, none, none, none, none⟩ "sid-w" rfl).2.2.1⟩

/-- C10: every outbound frame goes through the `send` guard, which
sends only when the socket's readyState is OPEN; on any other
readyState the send is a silent no-op (nothing sent, nothing raised,
state unchanged), so frames racing with connection close are dropped
rather than faulting the bridge.  This covers every sending operation
of the bridge: `handleStart` (started / already_started frames),
`handleUserMessage` and `handleToolResult` (error frames), and
`readStreamResponses` (chunk / completion / error frames). -/
theorem bridge_send_gated_on_open (s : WSState) (f : WSFrame)
    (h : s.readyState ≠ WS_OPEN) :
    wsSend s f = s ∧
      (∀ req uuid, (handleStart s req uuid).sent = s.sent) ∧
      (handleUserMessage s).sent = s.sent ∧
      (handleToolResult s).sent = s.sent ∧
      (∀ es, (readStreamResponses s es).sent = s.sent) := by
  have hno : ∀ f2, wsSend s f2 = s := fun f2 => by simp [wsSend, h]
  refine ⟨hno f, fun req uuid => ?_, ?_, ?_, fun es => ?_⟩
  · unfold handleStart
    split
    · rw [sendError, hno]
    · simp only [wsSend, h]
      split
      · simp_all [WS_OPEN]
      · simp
  · unfold handleUserMessage
    split <;> rw [sendError, hno]
  · unfold handleToolResult
    split <;> rw [sendError, hno]
  · unfold readStreamResponses
    rw [wsSend_foldl_closed _ _ h]

/-- Witness for C10 at a CLOSED (readyState 3) socket. -/
theorem bridge_send_gated_on_open_witness :
    ((3 : Nat) ≠ WS_OPEN) ∧
      wsSend
          { started := true, abortAC := none, gen := none,
            readyState := 3, sent := [] }
          (.chunkF "x" 0)
        = { started := true, abortAC := none, gen := none,
            readyState := 3, sent := [] } :=
  ⟨by decide, (bridge_send_gated_on_open
    { started := true, abortAC := none, gen := none, readyState := 3, sent := [] }
    (.chunkF "x" 0) (by decide)).1⟩
